import Mathlib

/-!
Verification of the movie-api scraping service (`src/main.py`).

The Python program is a FastAPI application with four GET endpoints:
`/api/search` (`search_movies`), `/api/download-links` (`get_download_links`),
`/api/final-links` (`get_final_download_links`) and `/api/src`
(`search_and_get_all_links`), plus the pure helper `parse_quality`.

Shallow embedding conventions:
  * BeautifulSoup parsing is modelled by giving each endpoint its page
    already decomposed into the structured pieces the CSS selectors of the
    source would extract (`ResultItem`, `TrBlock`, `QualityDiv`, ...).
  * The network is an explicit `Net` record of fetch oracles: for each URL it
    yields either a transport/HTTP-status error (`FetchResult.err`, the
    exception raised by `httpx` / `raise_for_status`) or the parsed page.
  * `re.search` applications whose internal structure no property depends on
    (the `linkedmoviehub` final-URL pattern and the three quality-info
    patterns) are oracles in `Net` returning `Option String` (the matched
    group, stripped, or `none`); `re.search (\d+)` inside `parse_quality` is
    implemented concretely.
  * Python exceptions are `PyErr`; each endpoint body runs in
    `Except PyErr` and the `try/except Exception: raise HTTPException(500, str(e))`
    wrapper every endpoint uses is `wrap500`.
-/

/-- Is `p` a prefix of `s` (on character lists)? -/
def listPrefixOf : List Char → List Char → Bool
  | [], _ => true
  | _ :: _, [] => false
  | a :: as, b :: bs => a == b && listPrefixOf as bs

/-- Does `p` occur as a contiguous subsequence of `s`? -/
def containsSub : List Char → List Char → Bool
  | [], p => listPrefixOf p []
  | s@(_ :: rest), p => listPrefixOf p s || containsSub rest p

/-- Python `pat in s` / CSS `[href*=pat]`: substring containment. -/
def strContains (s pat : String) : Bool :=
  containsSub s.data pat.data

/-- Maximal run of digits at the head of the character list. -/
def digitsOf : List Char → List Char
  | [] => []
  | c :: cs => if c.isDigit then c :: digitsOf cs else []

/-- Leftmost maximal digit run of the list, if any: the text matched by
`re.search` with pattern `(\d+)`. -/
def firstDigitRun : List Char → Option (List Char)
  | [] => none
  | c :: cs => if c.isDigit then some (c :: digitsOf cs) else firstDigitRun cs

/-- Value of a decimal digit string, as Python `int` would read it. -/
def natOfDigits (ds : List Char) : Nat :=
  ds.foldl (fun acc c => acc * 10 + (c.toNat - 48)) 0

/-- Embedding of `parse_quality` (src/main.py lines 51-58): `0` for a falsy
(empty) string, otherwise the integer value of the first embedded digit run,
`0` when there is none. -/
def parse_quality (quality_str : String) : Int :=
  if quality_str = "" then 0
  else
    match firstDigitRun quality_str.data with
    | some ds => (natOfDigits ds : Int)
    | none => 0

/-- Python exceptions that the endpoint bodies can raise. -/
inductive PyErr where
  /-- `fastapi.HTTPException(status_code, detail)`. -/
  | httpExc (status : Nat) (detail : String)
  /-- an exception raised by `httpx` (connection error or `raise_for_status`). -/
  | fetchError (msg : String)
  /-- `KeyError` from `tag['attr']` on a tag lacking the attribute. -/
  | keyError (key : String)
  /-- `AttributeError` from calling a method on `None`. -/
  | attrError (msg : String)
deriving DecidableEq, Repr

/-- Python `str(e)` for the exceptions above.  `str` of a fastapi
`HTTPException` is `"<status>: <detail>"`.  (For `KeyError` CPython also
wraps the key in quotes; the quotes are elided here, no property depends on
that string.) -/
def strOfErr : PyErr → String
  | .httpExc status detail => toString status ++ ": " ++ detail
  | .fetchError msg => msg
  | .keyError key => key
  | .attrError msg => msg

/-- Embedding of the `try: ... except Exception as e: raise HTTPException(500, str(e))`
wrapper that every endpoint uses.  Note that fastapi's `HTTPException` is
itself a subclass of `Exception`, so an `HTTPException(404, ...)` raised
inside the `try` block is caught and re-raised as a 500. -/
def wrap500 {α : Type} (body : Except PyErr α) : Except PyErr α :=
  match body with
  | .ok a => .ok a
  | .error e => .error (.httpExc 500 (strOfErr e))

/-- Outcome of one `client.get(url)` followed by `raise_for_status()`:
either the parsed page, or the raised transport/status exception. -/
inductive FetchResult (α : Type) where
  | ok (page : α)
  | err (msg : String)
deriving DecidableEq, Repr

/-- Lift a fetch outcome into the exception monad. -/
def fetch {α : Type} : FetchResult α → Except PyErr α
  | .ok page => .ok page
  | .err msg => .error (.fetchError msg)

/-- HTTP status code the client observes for an endpoint outcome:
200 on a returned value, the carried status for an `HTTPException`. -/
def statusOf {α : Type} : Except PyErr α → Option Nat
  | .ok _ => some 200
  | .error (.httpExc s _) => some s
  | .error _ => none

/-- An `<a>` tag as the search-result parser sees it: its stripped text and
its optional `href` attribute. -/
structure Anchor where
  text : String
  href : Option String
deriving DecidableEq, Repr

/-- One `.result-item` container of the search listing page, decomposed into
the pieces the selectors of `search_movies` extract: the optional
`.title a` anchor, the stripped texts of the optional `.year`, `.movies` and
`.contenido p` elements, and the optional `img` element with its optional
`src` attribute. -/
structure ResultItem where
  titleTag : Option Anchor
  year : Option String
  movies : Option String
  contenido : Option String
  img : Option (Option String)
deriving DecidableEq, Repr

/-- One entry of the `results` list built by `search_movies`. -/
structure SearchResult where
  title : String
  url : String
  year : String
  type : String
  description : String
  thumbnail : String
deriving DecidableEq, Repr

/-- The JSON object returned by `search_movies`. -/
structure SearchResponse where
  query : String
  results : List SearchResult
deriving DecidableEq, Repr

/-- One `tr[id^='link-']` row of a movie detail page: the stripped text of
its optional `.qua` element, the `href` attributes of its anchors in document
order (`none` for an anchor lacking `href`), and its serialized markup
`str(block)`. -/
structure TrBlock where
  qua : Option String
  anchors : List (Option String)
  html : String
deriving DecidableEq, Repr

/-- The fallback `button.downbtn` element's enclosing `<a>` tag. -/
structure ParentLink where
  href : Option String
deriving DecidableEq, Repr

/-- The fallback `button.downbtn` element, with its optional parent `<a>`. -/
structure DownBtn where
  parent_a : Option ParentLink
deriving DecidableEq, Repr

/-- A movie detail page as `get_download_links` sees it. -/
structure DetailPage where
  download_blocks : List TrBlock
  downbtn : Option DownBtn
deriving DecidableEq, Repr

/-- The `selected_quality_info` object. -/
structure QualityInfo where
  quality : String
  size : String
  language : String
deriving DecidableEq, Repr

/-- The JSON object returned by `get_download_links`. -/
structure DlResponse where
  intermediate_page_url : String
  final_page_url : String
  selected_quality_info : QualityInfo
deriving DecidableEq, Repr

/-- One `a.down-btn` button of a final page: its stripped text (the provider
label) and its optional `href`. -/
structure DownAnchor where
  text : String
  href : Option String
deriving DecidableEq, Repr

/-- One `div.quality` section of a final page: the stripped text of its
`h2` heading (`none` when `find('h2')` yields `None`) and the `a.down-btn`
buttons of its following `center` element (`none` when `find_next('center')`
yields `None`). -/
structure QualityDiv where
  h2 : Option String
  center : Option (List DownAnchor)
deriving DecidableEq, Repr

/-- A final download page as `get_final_download_links` sees it. -/
structure FinalPage where
  qualities : List QualityDiv
deriving DecidableEq, Repr

/-- One `{provider, url}` object of a final-links quality section. -/
structure ProviderLink where
  provider : String
  url : String
deriving DecidableEq, Repr

/-- One flattened `{quality, links}` object of an aggregated movie. -/
structure QualityLinks where
  quality : String
  links : List String
deriving DecidableEq, Repr

/-- One entry of the `results` list built by `search_and_get_all_links`. -/
structure AggMovie where
  title : String
  year : String
  type : String
  poster : String
  downloadLink : List QualityLinks
deriving DecidableEq, Repr

/-- The JSON object returned by `search_and_get_all_links`. -/
structure SrcResponse where
  ok : Bool
  developer : String
  results : List AggMovie
deriving DecidableEq, Repr

/-- The outside world: a fetch oracle per page kind (keyed by the URL the
code requests) and the regex oracles.  `finalMatch` models
`re.search` of the `linkedmoviehub` pattern over an intermediate page body;
`quaM`, `sizM` and `lanM` model the three quality-info pattern matches over
the selected row's markup, each returning the stripped captured group. -/
structure Net where
  searchPage : String → FetchResult (List ResultItem)
  detail : String → FetchResult DetailPage
  inter : String → FetchResult String
  finalMatch : String → Option String
  finalPage : String → FetchResult FinalPage
  quaM : String → Option String
  sizM : String → Option String
  lanM : String → Option String

/-- The search URL `f"https://movielinkhub.fun/?s={query}"`. -/
def searchUrl (query : String) : String :=
  "https://movielinkhub.fun/?s=" ++ query

/-- The `thumbnail` field: `item.select_one('img')['src'] if item.select_one('img') else ""`.
The attribute lookup raises `KeyError` when the `img` exists without `src`. -/
def thumbOf (item : ResultItem) : Except PyErr String :=
  match item.img with
  | none => .ok ""
  | some none => .error (.keyError "src")
  | some (some src) => .ok src

/-- The result-extraction loop of `search_movies` (src/main.py lines 30-44):
a container without a `.title a` anchor is skipped via `continue`; otherwise
the result dict is built, where `title_tag['href']` raises `KeyError` when
the anchor lacks `href`, and the optional fields default to
`"N/A"` / `"Unknown"` / `""` / `""`. -/
def extractResults : List ResultItem → Except PyErr (List SearchResult)
  | [] => .ok []
  | item :: rest =>
    match item.titleTag with
    | none => extractResults rest
    | some title_tag =>
      match title_tag.href with
      | none => .error (.keyError "href")
      | some url =>
        match thumbOf item with
        | .error e => .error e
        | .ok thumbnail =>
          match extractResults rest with
          | .error e => .error e
          | .ok rs =>
            .ok ({ title := title_tag.text
                   url := url
                   year := item.year.getD "N/A"
                   type := item.movies.getD "Unknown"
                   description := item.contenido.getD ""
                   thumbnail := thumbnail } :: rs)

/-- Body of the `try` block of `search_movies`. -/
def searchBody (net : Net) (query : String) : Except PyErr SearchResponse :=
  match fetch (net.searchPage (searchUrl query)) with
  | .error e => .error e
  | .ok items =>
    match extractResults items with
    | .error e => .error e
    | .ok results => .ok { query := query, results := results }

/-- Embedding of the `/api/search` endpoint `search_movies`
(src/main.py lines 17-49). -/
def search_movies (net : Net) (query : String) : Except PyErr SearchResponse :=
  wrap500 (searchBody net query)

/-- The selector `block.select_one("a[href*='/links/']")`: the first anchor
of the row whose `href` exists and contains the substring `/links/`. -/
def selectLinkTag : List (Option String) → Option String
  | [] => none
  | none :: rest => selectLinkTag rest
  | some href :: rest =>
    if strContains href "/links/" then some href else selectLinkTag rest

/-- The three loop variables of the quality-selection loop. -/
structure SelState where
  best_link : Option String
  max_quality : Int
  selected_block_html : String
deriving DecidableEq, Repr

/-- One iteration of the quality-selection loop (src/main.py lines 76-86):
the running best is replaced only when the row's quality is strictly greater
than `max_quality` AND the row has an anchor whose `href` contains
`/links/`. -/
def selStep (st : SelState) (block : TrBlock) : SelState :=
  let quality_text := block.qua.getD ""
  let current_quality := parse_quality quality_text
  if current_quality > st.max_quality then
    match selectLinkTag block.anchors with
    | some href =>
      { best_link := some href
        max_quality := current_quality
        selected_block_html := block.html }
    | none => st
  else st

/-- The whole quality-selection loop, from
`best_link = None; max_quality = -1; selected_block_html = ""`. -/
def selectBest (download_blocks : List TrBlock) : SelState :=
  download_blocks.foldl selStep { best_link := none, max_quality := -1, selected_block_html := "" }

/-- Python falsiness of the `best_link` variable: `None` or the empty
string. -/
def optFalsy : Option String → Bool
  | none => true
  | some s => s == ""

/-- Construction of `quality_info` (src/main.py lines 113-129): three
independent pattern matches over `selected_block_html`, each defaulting
to `"Unknown"`, run only when `selected_block_html` is truthy. -/
def mkQualityInfo (net : Net) (selected_block_html : String) : QualityInfo :=
  if selected_block_html = "" then
    { quality := "Unknown", size := "Unknown", language := "Unknown" }
  else
    { quality := (net.quaM selected_block_html).getD "Unknown"
      size := (net.sizM selected_block_html).getD "Unknown"
      language := (net.lanM selected_block_html).getD "Unknown" }

/-- The fallback branch (src/main.py lines 89-94): when `best_link` is falsy,
look for `button.downbtn`, its parent `<a>`, and that tag's `href`. -/
def fallbackLink (page : DetailPage) (best_link : Option String) : Option String :=
  if optFalsy best_link then
    match page.downbtn with
    | none => best_link
    | some button =>
      match button.parent_a with
      | none => best_link
      | some link_tag =>
        match link_tag.href with
        | none => best_link
        | some h => some h
  else best_link

/-- Body of the `try` block of `get_download_links`. -/
def dlBody (net : Net) (url : String) : Except PyErr DlResponse :=
  match fetch (net.detail url) with
  | .error e => .error e
  | .ok page =>
    let st := selectBest page.download_blocks
    match fallbackLink page st.best_link with
    | none => .error (.httpExc 404 "Download link not found on the page.")
    | some download_page_url =>
      if download_page_url = "" then
        .error (.httpExc 404 "Download link not found on the page.")
      else
        match fetch (net.inter download_page_url) with
        | .error e => .error e
        | .ok body =>
          match net.finalMatch body with
          | none => .error (.httpExc 404 "Final download page URL not found on intermediate page.")
          | some final_url =>
            .ok { intermediate_page_url := download_page_url
                  final_page_url := final_url
                  selected_quality_info := mkQualityInfo net st.selected_block_html }

/-- Embedding of the `/api/download-links` endpoint `get_download_links`
(src/main.py lines 60-138). -/
def get_download_links (net : Net) (url : String) : Except PyErr DlResponse :=
  wrap500 (dlBody net url)

/-- The button-collection loop of a quality section (src/main.py lines
159-166): `link['href']` raises `KeyError` when a button lacks `href`. -/
def extractLinks : List DownAnchor → Except PyErr (List ProviderLink)
  | [] => .ok []
  | link :: rest =>
    match link.href with
    | none => .error (.keyError "href")
    | some url =>
      match extractLinks rest with
      | .error e => .error e
      | .ok ls => .ok ({ provider := link.text, url := url } :: ls)

/-- Python dict assignment `d[k] = v` on an insertion-ordered dict with
unique keys: an existing key keeps its position and gets the new value, a
new key is appended. -/
def dictInsert (d : List (String × List ProviderLink)) (k : String)
    (v : List ProviderLink) : List (String × List ProviderLink) :=
  if d.any (fun p => p.1 == k) then
    d.map (fun p => if p.1 == k then (k, v) else p)
  else d ++ [(k, v)]

/-- One iteration of the quality-section loop (src/main.py lines 155-169):
`find('h2')` or `find_next('center')` yielding `None` raises
`AttributeError`; a section whose extracted `links` list is empty performs
no dict assignment. -/
def flStep (quality_sections : List (String × List ProviderLink))
    (quality_div : QualityDiv) : Except PyErr (List (String × List ProviderLink)) :=
  match quality_div.h2 with
  | none => .error (.attrError "NoneType object has no attribute get_text")
  | some quality =>
    match quality_div.center with
    | none => .error (.attrError "NoneType object has no attribute select")
    | some buttons =>
      match extractLinks buttons with
      | .error e => .error e
      | .ok links =>
        .ok (if links.isEmpty then quality_sections else dictInsert quality_sections quality links)

/-- The quality-section loop folded over the whole page. -/
def flFold : List QualityDiv → List (String × List ProviderLink) →
    Except PyErr (List (String × List ProviderLink))
  | [], d => .ok d
  | qd :: rest, d =>
    match flStep d qd with
    | .error e => .error e
    | .ok d2 => flFold rest d2

/-- Body of the `try` block of `get_final_download_links`: an empty dict at
the end raises `HTTPException(404, "No download links found")`. -/
def flBody (net : Net) (url : String) : Except PyErr (List (String × List ProviderLink)) :=
  match fetch (net.finalPage url) with
  | .error e => .error e
  | .ok page =>
    match flFold page.qualities [] with
    | .error e => .error e
    | .ok quality_sections =>
      if quality_sections.isEmpty then
        .error (.httpExc 404 "No download links found")
      else .ok quality_sections

/-- Embedding of the `/api/final-links` endpoint `get_final_download_links`
(src/main.py lines 140-177). -/
def get_final_download_links (net : Net) (url : String) :
    Except PyErr (List (String × List ProviderLink)) :=
  wrap500 (flBody net url)

/-- Assembly of one aggregated movie (src/main.py lines 212-228): each
quality section is flattened to its label and the bare URL list. -/
def mkAgg (movie : SearchResult) (secs : List (String × List ProviderLink)) : AggMovie :=
  { title := movie.title
    year := movie.year
    type := movie.type
    poster := movie.thumbnail
    downloadLink := secs.map (fun p => { quality := p.1, links := p.2.map (fun l => l.url) }) }

/-- The per-movie pipeline of the aggregator, as an `Option`: `none` exactly
when the movie is skipped (falsy URL, a failing step caught by
`except HTTPException: continue`, or a falsy `final_page_url`). -/
def processMovie (net : Net) (movie : SearchResult) : Option AggMovie :=
  if movie.url = "" then none
  else
    match get_download_links net movie.url with
    | .error _ => none
    | .ok download_page_info =>
      if download_page_info.final_page_url = "" then none
      else
        match get_final_download_links net download_page_info.final_page_url with
        | .error _ => none
        | .ok final_links_by_quality => some (mkAgg movie final_links_by_quality)

/-- One iteration of the aggregator's movie loop (src/main.py lines
196-233).  Only an `HTTPException` is caught by the per-movie
`except HTTPException` clause; any other exception would propagate. -/
def srcStep (net : Net) (acc : Except PyErr (List AggMovie)) (movie : SearchResult) :
    Except PyErr (List AggMovie) :=
  match acc with
  | .error e => .error e
  | .ok final_results =>
    if movie.url = "" then .ok final_results
    else
      match get_download_links net movie.url with
      | .error (.httpExc _ _) => .ok final_results
      | .error e => .error e
      | .ok download_page_info =>
        if download_page_info.final_page_url = "" then .ok final_results
        else
          match get_final_download_links net download_page_info.final_page_url with
          | .error (.httpExc _ _) => .ok final_results
          | .error e => .error e
          | .ok final_links_by_quality =>
            .ok (final_results ++ [mkAgg movie final_links_by_quality])

/-- Body of the `try` block of `search_and_get_all_links`
(src/main.py lines 179-242). -/
def srcBody (net : Net) (query : String) : Except PyErr SrcResponse :=
  match search_movies net query with
  | .error e => .error e
  | .ok search_response =>
    if search_response.results.isEmpty then
      .ok { ok := true, developer := "Tofazzal Hossain", results := [] }
    else
      match search_response.results.foldl (srcStep net) (.ok []) with
      | .error e => .error e
      | .ok final_results =>
        .ok { ok := true, developer := "Mahir Labib", results := final_results }

/-- Embedding of the `/api/src` endpoint `search_and_get_all_links`. -/
def search_and_get_all_links (net : Net) (query : String) : Except PyErr SrcResponse :=
  wrap500 (srcBody net query)

/-- Is the row one the selection loop can ever pick, i.e. does it have an
anchor whose `href` contains `/links/`? -/
def eligible (b : TrBlock) : Bool :=
  (selectLinkTag b.anchors).isSome

/-- The `numericQuality` of a row: `parse_quality` of its `.qua` text
(empty string when the `.qua` element is missing). -/
def blockQuality (b : TrBlock) : Int :=
  parse_quality (b.qua.getD "")

/-- The loop state after a row has been picked. -/
def blockState (b : TrBlock) : SelState :=
  { best_link := selectLinkTag b.anchors
    max_quality := blockQuality b
    selected_block_html := b.html }

/-- Reference selection function, written from the spec's words: among the
eligible rows, pick the one with the greatest `numericQuality`, keeping the
earlier row on ties. -/
def specPick : List TrBlock → Option TrBlock
  | [] => none
  | b :: bs =>
    if eligible b then
      match specPick bs with
      | none => some b
      | some c => if blockQuality c > blockQuality b then some c else some b
    else specPick bs

/-- Merge a previous loop state with the row `specPick` chose among the
remaining rows: the row wins exactly when its quality is strictly greater. -/
def mergeSel (st : SelState) : Option TrBlock → SelState
  | none => st
  | some b => if blockQuality b > st.max_quality then blockState b else st

/-! Concrete fixtures used by the per-claim example conjuncts, witnesses and
evaluations. -/

/-- A network where every fetch fails and every pattern match misses. -/
def emptyNet : Net :=
  { searchPage := fun _ => .err "unreachable"
    detail := fun _ => .err "unreachable"
    inter := fun _ => .err "unreachable"
    finalMatch := fun _ => none
    finalPage := fun _ => .err "unreachable"
    quaM := fun _ => none
    sizM := fun _ => none
    lanM := fun _ => none }

/-- A fully populated search-result container with the given title and
detail URL. -/
def fullItem (t u : String) : ResultItem :=
  { titleTag := some ⟨t, some u⟩
    year := some "2010"
    movies := some "Movie"
    contenido := some "desc"
    img := some (some "p.jpg") }

/-- A detail page with a single 1080p row whose anchor is `l`. -/
def goodDetail (l : String) : DetailPage :=
  { download_blocks := [⟨some "1080p", [some l], "row"⟩], downbtn := none }

/-- Three search results; detail pages exist for movies 1 and 3 only, so the
quality-selector step of movie 2 fails (no rows, no fallback button). -/
def net3 : Net :=
  { emptyNet with
    searchPage := fun _ => .ok [fullItem "m1" "u1", fullItem "m2" "u2", fullItem "m3" "u3"]
    detail := fun u =>
      if u = "u1" then .ok (goodDetail "/links/a1")
      else if u = "u3" then .ok (goodDetail "/links/a3")
      else .ok { download_blocks := [], downbtn := none }
    inter := fun u =>
      if u = "/links/a1" then .ok "body1"
      else if u = "/links/a3" then .ok "body3"
      else .err "bad inter"
    finalMatch := fun b =>
      if b = "body1" then some "https://linkedmoviehub.top/f1"
      else if b = "body3" then some "https://linkedmoviehub.top/f3"
      else none
    finalPage := fun u =>
      if u = "https://linkedmoviehub.top/f1" then
        .ok ⟨[⟨some "720p", some [⟨"P1", some "d1"⟩]⟩]⟩
      else if u = "https://linkedmoviehub.top/f3" then
        .ok ⟨[⟨some "480p", some [⟨"P3", some "d3"⟩]⟩]⟩
      else .err "bad final" }

/-- The aggregated record the scenario of `net3` produces for movie 1. -/
def agg1 : AggMovie :=
  { title := "m1", year := "2010", type := "Movie", poster := "p.jpg"
    downloadLink := [{ quality := "720p", links := ["d1"] }] }

/-- The aggregated record the scenario of `net3` produces for movie 3. -/
def agg3 : AggMovie :=
  { title := "m3", year := "2010", type := "Movie", poster := "p.jpg"
    downloadLink := [{ quality := "480p", links := ["d3"] }] }

/-- A network whose only reachable detail page has no download rows and no
fallback button. -/
def netNoLink : Net :=
  { emptyNet with detail := fun _ => .ok { download_blocks := [], downbtn := none } }

/-- A network whose detail page yields a link but whose intermediate page
contains no `linkedmoviehub` match. -/
def netNoPattern : Net :=
  { emptyNet with
    detail := fun _ => .ok (goodDetail "/links/a")
    inter := fun _ => .ok "nothing here" }

/-- A network whose detail-page fetch raises a transport error. -/
def netBoom : Net :=
  { emptyNet with detail := fun _ => .err "boom" }

/-- A 720p row with a `/links/` anchor, seen first. -/
def row720 : TrBlock := ⟨some "720p", [some "/links/a"], "h720"⟩

/-- A 1080p row with a `/links/` anchor. -/
def row1080 : TrBlock := ⟨some "1080p", [some "/links/b"], "h1080"⟩

/-- A second 720p row, for the tie-breaking example. -/
def row720b : TrBlock := ⟨some "720p", [some "/links/c"], "h720b"⟩

/-- A 1080p row whose only anchor does not contain `/links/`. -/
def rowHighNoLink : TrBlock := ⟨some "1080p", [some "/other/x"], "hH"⟩

/-- A 720p row with a `/links/` anchor. -/
def rowLowWithLink : TrBlock := ⟨some "720p", [some "/links/low"], "hL"⟩

/-- A network whose final page has a single quality section with zero
buttons. -/
def netEmptySection : Net :=
  { emptyNet with finalPage := fun _ => .ok ⟨[⟨some "720p", some []⟩]⟩ }

/-- A network whose search page has zero result containers. -/
def netNoContainers : Net :=
  { emptyNet with searchPage := fun _ => .ok [] }

/-- A result container whose title anchor exists but has no `href`
attribute. -/
def itemNoHref : ResultItem :=
  { titleTag := some ⟨"Broken", none⟩
    year := none
    movies := none
    contenido := none
    img := none }

/-- A network whose search page holds one well-formed container and one
whose title anchor lacks `href`. -/
def netBadHref : Net :=
  { emptyNet with searchPage := fun _ => .ok [fullItem "m1" "u1", itemNoHref] }

/-- A network whose final page has two sections labelled `720p` (the second
overwriting the first) followed by a `480p` section. -/
def netDupLabel : Net :=
  { emptyNet with
    finalPage := fun _ =>
      .ok ⟨[⟨some "720p", some [⟨"P1", some "d1"⟩]⟩,
            ⟨some "480p", some [⟨"P2", some "d2"⟩]⟩,
            ⟨some "720p", some [⟨"P3", some "d3"⟩]⟩]⟩ }

/-- The search response the scenario of `net3` produces. -/
def srch3 : SearchResponse :=
  { query := "q"
    results :=
      [{ title := "m1", url := "u1", year := "2010", type := "Movie",
         description := "desc", thumbnail := "p.jpg" },
       { title := "m2", url := "u2", year := "2010", type := "Movie",
         description := "desc", thumbnail := "p.jpg" },
       { title := "m3", url := "u3", year := "2010", type := "Movie",
         description := "desc", thumbnail := "p.jpg" }] }

/-! General lemmas about the embedding. -/

theorem wrap500_error {α : Type} {x : Except PyErr α} {e : PyErr}
    (h : wrap500 x = .error e) : ∃ d, e = .httpExc 500 d := by
  cases x with
  | ok a => simp [wrap500] at h
  | error e0 =>
    simp [wrap500] at h
    exact ⟨strOfErr e0, h.symm⟩

theorem wrap500_error_body {α : Type} {x : Except PyErr α} {e : PyErr}
    (h : wrap500 x = .error e) : ∃ e0, x = .error e0 := by
  cases x with
  | ok a => simp [wrap500] at h
  | error e0 => exact ⟨e0, rfl⟩

theorem wrap500_ok {α : Type} {x : Except PyErr α} {a : α}
    (h : wrap500 x = .ok a) : x = .ok a := by
  cases x with
  | ok b => simpa [wrap500] using h
  | error e0 => simp [wrap500] at h

theorem parse_quality_nonneg (s : String) : 0 ≤ parse_quality s := by
  unfold parse_quality
  split
  · exact le_refl 0
  · cases firstDigitRun s.data with
    | none => simp
    | some ds => simp

theorem blockQuality_nonneg (b : TrBlock) : 0 ≤ blockQuality b :=
  parse_quality_nonneg _

theorem get_download_links_error {net : Net} {url : String} {e : PyErr}
    (h : get_download_links net url = .error e) : ∃ d, e = .httpExc 500 d :=
  wrap500_error h

theorem get_final_download_links_error {net : Net} {url : String} {e : PyErr}
    (h : get_final_download_links net url = .error e) : ∃ d, e = .httpExc 500 d :=
  wrap500_error h

/-! Lemmas about the quality-selection loop. -/

theorem selectLinkTag_has_links : ∀ (anchors : List (Option String)) (h : String),
    selectLinkTag anchors = some h → strContains h "/links/" = true := by
  intro anchors
  induction anchors with
  | nil => intro h hh; simp [selectLinkTag] at hh
  | cons a rest ih =>
    intro h hh
    cases a with
    | none => exact ih h hh
    | some href =>
      by_cases hc : strContains href "/links/" = true
      · simp [selectLinkTag, hc] at hh
        subst hh; exact hc
      · simp [selectLinkTag, hc] at hh
        exact ih h hh

theorem selStep_best {st : SelState} {b : TrBlock} {h : String}
    (hh : (selStep st b).best_link = some h) :
    st.best_link = some h ∨ selectLinkTag b.anchors = some h := by
  unfold selStep at hh
  by_cases hq : parse_quality (b.qua.getD "") > st.max_quality
  · simp only [hq, if_pos] at hh
    cases hl : selectLinkTag b.anchors with
    | none => rw [hl] at hh; exact Or.inl hh
    | some href =>
      rw [hl] at hh
      simp at hh
      subst hh
      exact Or.inr rfl
  · simp only [hq, if_neg, if_false] at hh
    exact Or.inl hh

theorem foldl_best_from : ∀ (blocks : List TrBlock) (st : SelState) (h : String),
    (List.foldl selStep st blocks).best_link = some h →
    st.best_link = some h ∨ ∃ b, b ∈ blocks ∧ selectLinkTag b.anchors = some h := by
  intro blocks
  induction blocks with
  | nil => intro st h hh; exact Or.inl hh
  | cons b bs ih =>
    intro st h hh
    rw [List.foldl_cons] at hh
    rcases ih (selStep st b) h hh with hst | ⟨c, hc, hcl⟩
    · rcases selStep_best hst with h1 | h2
      · exact Or.inl h1
      · exact Or.inr ⟨b, List.mem_cons_self b bs, h2⟩
    · exact Or.inr ⟨c, List.mem_cons_of_mem b hc, hcl⟩

theorem selectBest_best_from {blocks : List TrBlock} {h : String}
    (hh : (selectBest blocks).best_link = some h) :
    ∃ b, b ∈ blocks ∧ selectLinkTag b.anchors = some h := by
  rcases foldl_best_from blocks _ h hh with hst | hex
  · simp at hst
  · exact hex

theorem specPick_none : ∀ (blocks : List TrBlock),
    specPick blocks = none → ∀ b ∈ blocks, eligible b = false := by
  intro blocks
  induction blocks with
  | nil => intro _ b hb; simp at hb
  | cons b bs ih =>
    intro hn c hc
    unfold specPick at hn
    by_cases he : eligible b
    · simp only [he, if_pos] at hn
      cases hp : specPick bs <;> rw [hp] at hn <;> simp at hn
      · split at hn <;> simp at hn
    · simp only [he] at hn
      rw [if_neg (by simp [he])] at hn
      rcases List.mem_cons.mp hc with rfl | hmem
      · simpa using he
      · exact ih hn c hmem

theorem selStep_eq_of_eligible {st : SelState} {b : TrBlock} (he : eligible b = true) :
    selStep st b = if blockQuality b > st.max_quality then blockState b else st := by
  rcases Option.isSome_iff_exists.mp he with ⟨href, hl⟩
  unfold selStep blockState blockQuality
  by_cases hq : parse_quality (b.qua.getD "") > st.max_quality
  · simp [hq, hl]
  · simp [hq]

theorem selStep_eq_of_not_eligible {st : SelState} {b : TrBlock} (he : eligible b = false) :
    selStep st b = st := by
  have hl : selectLinkTag b.anchors = none := by
    unfold eligible at he
    exact Option.not_isSome_iff_eq_none.mp (by simp [he])
  unfold selStep
  by_cases hq : parse_quality (b.qua.getD "") > st.max_quality
  · simp [hq, hl]
  · simp [hq]

theorem foldl_selStep_merge : ∀ (blocks : List TrBlock) (st : SelState),
    List.foldl selStep st blocks = mergeSel st (specPick blocks) := by
  intro blocks
  induction blocks with
  | nil => intro st; rfl
  | cons b bs ih =>
    intro st
    rw [List.foldl_cons, ih]
    by_cases he : eligible b
    · rw [selStep_eq_of_eligible he]
      simp only [specPick, he, if_pos]
      cases hp : specPick bs with
      | none => simp [mergeSel]
      | some c =>
        by_cases hcb : blockQuality c > blockQuality b
        · simp only [hcb, if_pos]
          by_cases hbst : blockQuality b > st.max_quality
          · have h1 : blockQuality c > (blockState b).max_quality := by
              simpa [blockState] using hcb
            have h2 : blockQuality c > st.max_quality := lt_trans hbst hcb
            simp [mergeSel, hbst, h1, h2]
          · simp [hbst]
        · simp only [hcb, if_neg, if_false]
          by_cases hbst : blockQuality b > st.max_quality
          · have h1 : ¬ blockQuality c > (blockState b).max_quality := by
              simpa [blockState] using hcb
            simp [mergeSel, hbst, h1]
          · have hc_le : blockQuality c ≤ blockQuality b := not_lt.mp hcb
            have hb_le : blockQuality b ≤ st.max_quality := not_lt.mp hbst
            have hcst : ¬ blockQuality c > st.max_quality :=
              not_lt.mpr (le_trans hc_le hb_le)
            simp [mergeSel, hbst, hcst]
    · rw [selStep_eq_of_not_eligible (by simpa using he)]
      simp [specPick, he]

theorem selectBest_eq_mergeSel (blocks : List TrBlock) :
    selectBest blocks =
      mergeSel { best_link := none, max_quality := -1, selected_block_html := "" }
        (specPick blocks) :=
  foldl_selStep_merge blocks _

theorem specPick_max : ∀ (blocks : List TrBlock) (c : TrBlock),
    specPick blocks = some c →
    eligible c = true ∧ ∀ d ∈ blocks, eligible d = true → blockQuality d ≤ blockQuality c := by
  intro blocks
  induction blocks with
  | nil => intro c hc; simp [specPick] at hc
  | cons b bs ih =>
    intro c hc
    unfold specPick at hc
    by_cases he : eligible b
    · simp only [he, if_pos] at hc
      cases hp : specPick bs with
      | none =>
        rw [hp] at hc
        simp at hc
        subst hc
        refine ⟨he, ?_⟩
        intro d hd _
        rcases List.mem_cons.mp hd with rfl | hmem
        · exact le_refl _
        · rename_i hde
          have := specPick_none bs hp d hmem
          rw [this] at hde
          simp at hde
      | some c0 =>
        rw [hp] at hc
        rcases ih c0 hp with ⟨he0, hmax0⟩
        by_cases hcb : blockQuality c0 > blockQuality b
        · simp only [hcb, if_pos] at hc
          simp at hc
          subst hc
          refine ⟨he0, ?_⟩
          intro d hd hde
          rcases List.mem_cons.mp hd with rfl | hmem
          · exact le_of_lt hcb
          · exact hmax0 d hmem hde
        · simp only [hcb, if_neg, if_false] at hc
          simp at hc
          subst hc
          refine ⟨he, ?_⟩
          intro d hd hde
          rcases List.mem_cons.mp hd with rfl | hmem
          · exact le_refl _
          · exact le_trans (hmax0 d hmem hde) (not_lt.mp hcb)
    · simp only [he] at hc
      rw [if_neg (by simp [he])] at hc
      rcases ih c hc with ⟨he0, hmax0⟩
      refine ⟨he0, ?_⟩
      intro d hd hde
      rcases List.mem_cons.mp hd with rfl | hmem
      · rw [hde] at he; simp at he
      · exact hmax0 d hmem hde

theorem specPick_split : ∀ (blocks : List TrBlock) (c : TrBlock),
    specPick blocks = some c →
    ∃ pre post, blocks = pre ++ c :: post ∧
      (∀ d ∈ pre, eligible d = true → blockQuality d < blockQuality c) := by
  intro blocks
  induction blocks with
  | nil => intro c hc; simp [specPick] at hc
  | cons b bs ih =>
    intro c hc
    unfold specPick at hc
    by_cases he : eligible b
    · simp only [he, if_pos] at hc
      cases hp : specPick bs with
      | none =>
        rw [hp] at hc
        simp at hc
        subst hc
        exact ⟨[], bs, rfl, by intro d hd; simp at hd⟩
      | some c0 =>
        rw [hp] at hc
        by_cases hcb : blockQuality c0 > blockQuality b
        · simp only [hcb, if_pos] at hc
          simp at hc
          subst hc
          rcases ih c0 hp with ⟨pre, post, hsplit, hpre⟩
          refine ⟨b :: pre, post, by rw [hsplit]; rfl, ?_⟩
          intro d hd hde
          rcases List.mem_cons.mp hd with rfl | hmem
          · exact hcb
          · exact hpre d hmem hde
        · simp only [hcb, if_neg, if_false] at hc
          simp at hc
          subst hc
          exact ⟨[], bs, rfl, by intro d hd; simp at hd⟩
    · simp only [he] at hc
      rw [if_neg (by simp [he])] at hc
      rcases ih c hc with ⟨pre, post, hsplit, hpre⟩
      refine ⟨b :: pre, post, by rw [hsplit]; rfl, ?_⟩
      intro d hd hde
      rcases List.mem_cons.mp hd with rfl | hmem
      · rw [hde] at he; simp at he
      · exact hpre d hmem hde

theorem selectBest_spec {blocks : List TrBlock} {c : TrBlock}
    (hc : specPick blocks = some c) : selectBest blocks = blockState c := by
  rw [selectBest_eq_mergeSel, hc]
  unfold mergeSel
  have : blockQuality c > (-1 : Int) :=
    lt_of_lt_of_le (by norm_num) (blockQuality_nonneg c)
  simp [this]

/-! Lemmas about the aggregator's movie loop. -/

theorem srcStep_ok (net : Net) (acc : List AggMovie) (movie : SearchResult) :
    srcStep net (.ok acc) movie = .ok (acc ++ (processMovie net movie).toList) := by
  unfold srcStep processMovie
  by_cases hu : movie.url = ""
  · simp [hu]
  · simp only [hu, if_false]
    cases hdl : get_download_links net movie.url with
    | error e =>
      rcases get_download_links_error hdl with ⟨d, rfl⟩
      simp
    | ok info =>
      by_cases hf : info.final_page_url = ""
      · simp [hf]
      · simp only [hf, if_false]
        cases hfl : get_final_download_links net info.final_page_url with
        | error e =>
          rcases get_final_download_links_error hfl with ⟨d, rfl⟩
          simp
        | ok secs => simp

theorem srcFold_ok (net : Net) : ∀ (movies : List SearchResult) (acc : List AggMovie),
    List.foldl (srcStep net) (.ok acc) movies =
      .ok (acc ++ movies.filterMap (processMovie net)) := by
  intro movies
  induction movies with
  | nil => intro acc; simp
  | cons movie rest ih =>
    intro acc
    rw [List.foldl_cons, srcStep_ok, ih, List.filterMap_cons]
    cases hpm : processMovie net movie <;> simp

theorem srcBody_of_search_ok {net : Net} {q : String} {sresp : SearchResponse}
    (h : search_movies net q = .ok sresp) :
    srcBody net q =
      .ok (if sresp.results.isEmpty then
             { ok := true, developer := "Tofazzal Hossain", results := [] }
           else
             { ok := true, developer := "Mahir Labib",
               results := sresp.results.filterMap (processMovie net) }) := by
  unfold srcBody
  rw [h]
  by_cases he : sresp.results.isEmpty
  · simp [he]
  · simp only [he, if_false]
    rw [srcFold_ok net sresp.results []]
    simp [he]

/-! Lemmas about the search-result extraction loop. -/

theorem extractResults_error_of_bad :
    ∀ (items : List ResultItem) (item : ResultItem) (tag : Anchor),
    item ∈ items → item.titleTag = some tag → tag.href = none →
    ∃ e, extractResults items = .error e := by
  intro items
  induction items with
  | nil => intro item tag hmem; simp at hmem
  | cons i rest ih =>
    intro item tag hmem htag hhref
    rcases List.mem_cons.mp hmem with rfl | hmem2
    · exact ⟨.keyError "href", by simp [extractResults, htag, hhref]⟩
    · rcases ih item tag hmem2 htag hhref with ⟨e, he⟩
      cases hti : i.titleTag with
      | none => exact ⟨e, by simp [extractResults, hti, he]⟩
      | some t =>
        cases hth : t.href with
        | none => exact ⟨.keyError "href", by simp [extractResults, hti, hth]⟩
        | some url =>
          cases htm : thumbOf i with
          | error e2 => exact ⟨e2, by simp [extractResults, hti, hth, htm]⟩
          | ok thumb => exact ⟨e, by simp [extractResults, hti, hth, htm, he]⟩

/-! Lemmas about the final-links quality-section loop. -/

theorem flStep_empty_section (d : List (String × List ProviderLink)) (q : String) :
    flStep d ⟨some q, some []⟩ = .ok d := rfl

theorem flFold_all_empty :
    ∀ (divs : List QualityDiv) (d : List (String × List ProviderLink)),
    (∀ div ∈ divs, ∃ q, div.h2 = some q ∧ div.center = some []) →
    flFold divs d = .ok d := by
  intro divs
  induction divs with
  | nil => intro d _; rfl
  | cons div rest ih =>
    intro d hall
    rcases hall div (List.mem_cons_self div rest) with ⟨q, hq, hc⟩
    have hdiv : div = ⟨some q, some []⟩ := by
      cases div; simp at hq hc; simp [hq, hc]
    rw [hdiv]
    have hstep : flFold (QualityDiv.mk (some q) (some []) :: rest) d = flFold rest d := rfl
    rw [hstep]
    exact ih d (fun x hx => hall x (List.mem_cons_of_mem div hx))

theorem dictInsert_no_empty {d : List (String × List ProviderLink)} {k : String}
    {v : List ProviderLink} (hd : ∀ p ∈ d, p.2 ≠ []) (hv : v ≠ []) :
    ∀ p ∈ dictInsert d k v, p.2 ≠ [] := by
  intro p hp
  unfold dictInsert at hp
  split at hp
  · rcases List.mem_map.mp hp with ⟨p0, hp0, hpe⟩
    by_cases hk : p0.1 == k
    · simp only [hk, if_pos] at hpe
      rw [← hpe]
      exact hv
    · simp only [hk] at hpe
      rw [if_neg (by simp [hk])] at hpe
      rw [← hpe]
      exact hd p0 hp0
  · rcases List.mem_append.mp hp with h1 | h2
    · exact hd p h1
    · simp at h2
      rw [h2]
      exact hv

theorem flStep_no_empty {d d2 : List (String × List ProviderLink)} {div : QualityDiv}
    (hd : ∀ p ∈ d, p.2 ≠ []) (h : flStep d div = .ok d2) :
    ∀ p ∈ d2, p.2 ≠ [] := by
  obtain ⟨h2f, cf⟩ := div
  cases h2f with
  | none => simp [flStep] at h
  | some q =>
    cases cf with
    | none => simp [flStep] at h
    | some buttons =>
      simp only [flStep] at h
      cases hl : extractLinks buttons with
      | error e => rw [hl] at h; simp at h
      | ok links =>
        rw [hl] at h
        simp at h
        by_cases hle : links = []
        · rw [if_pos hle] at h
          rw [← h]
          exact hd
        · rw [if_neg hle] at h
          rw [← h]
          exact dictInsert_no_empty hd hle

theorem flFold_no_empty :
    ∀ (divs : List QualityDiv) (d d2 : List (String × List ProviderLink)),
    (∀ p ∈ d, p.2 ≠ []) → flFold divs d = .ok d2 → ∀ p ∈ d2, p.2 ≠ [] := by
  intro divs
  induction divs with
  | nil =>
    intro d d2 hd h
    simp [flFold] at h
    rw [← h]
    exact hd
  | cons div rest ih =>
    intro d d2 hd h
    unfold flFold at h
    cases hs : flStep d div with
    | error e => rw [hs] at h; simp at h
    | ok dmid =>
      rw [hs] at h
      exact ih dmid d2 (flStep_no_empty hd hs) h

theorem firstDigitRun_none : ∀ (l : List Char),
    (∀ c ∈ l, c.isDigit = false) → firstDigitRun l = none := by
  intro l
  induction l with
  | nil => intro _; rfl
  | cons c cs ih =>
    intro h
    unfold firstDigitRun
    rw [h c (List.mem_cons_self c cs)]
    exact ih (fun x hx => h x (List.mem_cons_of_mem c hx))

/-! The claims. -/

/-- C5: `parse_quality` returns the first embedded integer of the label
string and 0 when the string is empty or contains no digit:
`parse_quality "1080p" = 1080`, `parse_quality "4K" = 4`,
`parse_quality "" = 0`, `parse_quality "HD" = 0`, and for the label
`"4K 2160p"` it returns 4 (the first integer, not the largest). -/
theorem C5_parse_quality :
    parse_quality "1080p" = 1080 ∧ parse_quality "4K" = 4 ∧
    parse_quality "" = 0 ∧ parse_quality "HD" = 0 ∧
    parse_quality "4K 2160p" = 4 ∧
    (∀ s : String, (∀ c ∈ s.data, c.isDigit = false) → parse_quality s = 0) := by
  refine ⟨by decide, by decide, by decide, by decide, by decide, ?_⟩
  intro s hs
  unfold parse_quality
  split
  · rfl
  · rw [firstDigitRun_none s.data hs]

theorem C5_parse_quality_witness :
    (∀ c ∈ ("HDrip" : String).data, c.isDigit = false) ∧ parse_quality "HDrip" = 0 :=
  ⟨by decide, C5_parse_quality.2.2.2.2.2 "HDrip" (by decide)⟩

/-- C7: for every search page containing zero matching result containers,
`/api/search` returns a success response whose `results` field is the empty
list, not an error. -/
theorem C7_empty_search_ok (net : Net) (query : String)
    (h : net.searchPage (searchUrl query) = .ok []) :
    search_movies net query = .ok { query := query, results := [] } := by
  unfold search_movies searchBody
  rw [h]
  rfl

theorem C7_empty_search_ok_witness :
    netNoContainers.searchPage (searchUrl "inception") = .ok [] ∧
    search_movies netNoContainers "inception" = .ok { query := "inception", results := [] } :=
  ⟨rfl, C7_empty_search_ok netNoContainers "inception" rfl⟩

/-- C2: actual status behavior of `/api/download-links`.  The two internally
raised 404s (no download link found on the detail page; no final-page
pattern match on the intermediate page) are caught by the endpoint's own
blanket `except Exception` handler — fastapi's `HTTPException` subclasses
`Exception` — and re-raised as HTTP 500, so the client observes 500, not the
404 the claim states; transport errors give 500 as claimed. -/
theorem C2_download_links_status :
    get_download_links netNoLink "u" =
      .error (.httpExc 500 "404: Download link not found on the page.") ∧
    get_download_links netNoPattern "u" =
      .error (.httpExc 500 "404: Final download page URL not found on intermediate page.") ∧
    get_download_links netBoom "u" = .error (.httpExc 500 "boom") ∧
    statusOf (get_download_links netNoLink "u") ≠ some 404 ∧
    statusOf (get_download_links netNoPattern "u") ≠ some 404 := by
  refine ⟨rfl, rfl, rfl, by decide, by decide⟩

/-- C9: in `/api/search`, only a container with no title anchor at all is
skipped; a container whose title anchor exists but lacks `href` makes the
whole request fail with HTTP 500 (the attribute lookup raises `KeyError`,
which the blanket handler turns into a 500). -/
theorem C9_missing_href_fails_search :
    (∀ (item : ResultItem) (rest : List ResultItem), item.titleTag = none →
       extractResults (item :: rest) = extractResults rest) ∧
    (∀ (net : Net) (query : String) (items : List ResultItem)
       (item : ResultItem) (tag : Anchor),
       net.searchPage (searchUrl query) = .ok items → item ∈ items →
       item.titleTag = some tag → tag.href = none →
       ∃ d, search_movies net query = .error (.httpExc 500 d)) := by
  constructor
  · intro item rest h
    simp [extractResults, h]
  · intro net query items item tag hpage hmem htag hhref
    rcases extractResults_error_of_bad items item tag hmem htag hhref with ⟨e, he⟩
    refine ⟨strOfErr e, ?_⟩
    unfold search_movies searchBody
    rw [hpage]
    simp only [fetch]
    rw [he]
    rfl

theorem C9_missing_href_fails_search_witness :
    netBadHref.searchPage (searchUrl "q") = .ok [fullItem "m1" "u1", itemNoHref] ∧
    itemNoHref ∈ [fullItem "m1" "u1", itemNoHref] ∧
    itemNoHref.titleTag = some ⟨"Broken", none⟩ ∧
    (Anchor.mk "Broken" none).href = none ∧
    ∃ d, search_movies netBadHref "q" = .error (.httpExc 500 d) :=
  ⟨rfl, by decide, rfl, rfl,
    C9_missing_href_fails_search.2 netBadHref "q" [fullItem "m1" "u1", itemNoHref]
      itemNoHref ⟨"Broken", none⟩ rfl (by decide) rfl rfl⟩

/-- C8: `/api/src` replies with `ok = true` and exactly one of two distinct
fixed developer literals: `"Tofazzal Hossain"` when the search step returns
zero results, `"Mahir Labib"` on the populated path; the two literals
differ. -/
theorem C8_developer_literals :
    (∀ (net : Net) (q : String) (sresp : SearchResponse),
       search_movies net q = .ok sresp → sresp.results = [] →
       search_and_get_all_links net q =
         .ok { ok := true, developer := "Tofazzal Hossain", results := [] }) ∧
    (∀ (net : Net) (q : String) (sresp : SearchResponse),
       search_movies net q = .ok sresp → sresp.results ≠ [] →
       ∃ r, search_and_get_all_links net q = .ok r ∧
         r.ok = true ∧ r.developer = "Mahir Labib") ∧
    ("Tofazzal Hossain" : String) ≠ "Mahir Labib" := by
  refine ⟨?_, ?_, by decide⟩
  · intro net q sresp hs he
    unfold search_and_get_all_links
    rw [srcBody_of_search_ok hs]
    simp [he, wrap500]
  · intro net q sresp hs he
    have hne : sresp.results.isEmpty = false := by
      cases hres : sresp.results with
      | nil => exact absurd hres he
      | cons a l => rfl
    refine ⟨{ ok := true, developer := "Mahir Labib",
              results := sresp.results.filterMap (processMovie net) }, ?_, rfl, rfl⟩
    unfold search_and_get_all_links
    rw [srcBody_of_search_ok hs, hne]
    rfl

theorem C8_developer_literals_witness :
    search_movies netNoContainers "q" = .ok { query := "q", results := [] } ∧
    ({ query := "q", results := [] } : SearchResponse).results = [] ∧
    search_and_get_all_links netNoContainers "q" =
      .ok { ok := true, developer := "Tofazzal Hossain", results := [] } :=
  ⟨rfl, rfl, C8_developer_literals.1 netNoContainers "q" { query := "q", results := [] } rfl rfl⟩

/-- C1: for every query whose initial search succeeds, `/api/src` succeeds
and returns exactly the movies whose per-movie pipeline (quality selector
then final-link extractor) succeeded, in the original search order, skipped
movies simply absent; an error reply occurs only when the initial search
step itself failed, and is then a 500; in the concrete `net3` scenario of
three search results where the second fails at the quality-selector step,
the returned results are exactly movies 1 and 3, in order. -/
theorem C1_aggregator_isolation :
    (∀ (net : Net) (q : String) (sresp : SearchResponse),
       search_movies net q = .ok sresp →
       ∃ r, search_and_get_all_links net q = .ok r ∧
         r.results = sresp.results.filterMap (processMovie net)) ∧
    (∀ (net : Net) (q : String) (e : PyErr),
       search_and_get_all_links net q = .error e →
       (∃ e0, search_movies net q = .error e0) ∧ ∃ d, e = .httpExc 500 d) ∧
    search_and_get_all_links net3 "q" =
      .ok { ok := true, developer := "Mahir Labib", results := [agg1, agg3] } := by
  refine ⟨?_, ?_, rfl⟩
  · intro net q sresp hs
    by_cases he : sresp.results.isEmpty
    · have hres : sresp.results = [] := by
        cases hres0 : sresp.results with
        | nil => rfl
        | cons a l => rw [hres0] at he; simp at he
      refine ⟨{ ok := true, developer := "Tofazzal Hossain", results := [] }, ?_, ?_⟩
      · unfold search_and_get_all_links
        rw [srcBody_of_search_ok hs]
        simp [he, wrap500]
      · rw [hres]
        rfl
    · have hne : sresp.results.isEmpty = false := by
        cases hne0 : sresp.results.isEmpty with
        | true => exact absurd hne0 he
        | false => rfl
      refine ⟨{ ok := true, developer := "Mahir Labib",
                results := sresp.results.filterMap (processMovie net) }, ?_, rfl⟩
      unfold search_and_get_all_links
      rw [srcBody_of_search_ok hs, hne]
      rfl
  · intro net q e hsrc
    rcases wrap500_error hsrc with ⟨d, rfl⟩
    rcases wrap500_error_body hsrc with ⟨e0, hbody⟩
    refine ⟨?_, d, rfl⟩
    cases hs : search_movies net q with
    | error e1 => exact ⟨e1, rfl⟩
    | ok sresp =>
      exfalso
      rw [srcBody_of_search_ok hs] at hbody
      simp at hbody

theorem C1_aggregator_isolation_witness :
    search_movies net3 "q" = .ok srch3 ∧
    ∃ r, search_and_get_all_links net3 "q" = .ok r ∧
      r.results = srch3.results.filterMap (processMovie net3) :=
  ⟨rfl, C1_aggregator_isolation.1 net3 "q" srch3 rfl⟩

/-- C3: the quality selector never picks a row without an anchor whose
`href` contains `/links/`: whatever row the loop selects, its link comes
from such an anchor of one of the rows, and in the concrete two-row page
where the higher-quality row has no `/links/` anchor, the lower-quality row
with one is selected. -/
theorem C3_links_anchor_required :
    (∀ (blocks : List TrBlock) (h : String),
       (selectBest blocks).best_link = some h →
       strContains h "/links/" = true ∧
       ∃ b, b ∈ blocks ∧ selectLinkTag b.anchors = some h) ∧
    (selectBest [rowHighNoLink, rowLowWithLink]).best_link = some "/links/low" := by
  constructor
  · intro blocks h hh
    rcases selectBest_best_from hh with ⟨b, hmem, hsel⟩
    exact ⟨selectLinkTag_has_links b.anchors h hsel, b, hmem, hsel⟩
  · rfl

theorem C3_links_anchor_required_witness :
    (selectBest [rowHighNoLink, rowLowWithLink]).best_link = some "/links/low" ∧
    strContains "/links/low" "/links/" = true ∧
    ∃ b, b ∈ [rowHighNoLink, rowLowWithLink] ∧ selectLinkTag b.anchors = some "/links/low" :=
  ⟨rfl, C3_links_anchor_required.1 [rowHighNoLink, rowLowWithLink] "/links/low" rfl⟩

/-- C4: whenever some row is eligible (has a `/links/` anchor), the selector
picks the eligible row with the maximum `numericQuality` and, among equal
qualities, the earliest-seen one (every earlier eligible row is strictly
smaller); concretely 720-then-1080 picks the 1080 row, 1080-then-720 also
picks the 1080 row, and on a 720/720 tie the first row wins. -/
theorem C4_picks_max_quality :
    (∀ blocks : List TrBlock, (∃ b ∈ blocks, eligible b = true) →
       ∃ pre c post, blocks = pre ++ c :: post ∧ eligible c = true ∧
         selectBest blocks = blockState c ∧
         (∀ d ∈ blocks, eligible d = true → blockQuality d ≤ blockQuality c) ∧
         (∀ d ∈ pre, eligible d = true → blockQuality d < blockQuality c)) ∧
    selectBest [row720, row1080] = blockState row1080 ∧
    selectBest [row1080, row720] = blockState row1080 ∧
    selectBest [row720, row720b] = blockState row720 := by
  refine ⟨?_, rfl, rfl, rfl⟩
  intro blocks hex
  obtain ⟨b0, hb0, he0⟩ := hex
  cases hp : specPick blocks with
  | none => exact absurd (specPick_none blocks hp b0 hb0) (by simp [he0])
  | some c =>
    rcases specPick_split blocks c hp with ⟨pre, post, hsplit, hpre⟩
    rcases specPick_max blocks c hp with ⟨hec, hmax⟩
    exact ⟨pre, c, post, hsplit, hec, selectBest_spec hp, hmax, hpre⟩

theorem C4_picks_max_quality_witness :
    (∃ b ∈ [row720, row1080], eligible b = true) ∧
    ∃ pre c post, [row720, row1080] = pre ++ c :: post ∧ eligible c = true ∧
      selectBest [row720, row1080] = blockState c ∧
      (∀ d ∈ [row720, row1080], eligible d = true → blockQuality d ≤ blockQuality c) ∧
      (∀ d ∈ pre, eligible d = true → blockQuality d < blockQuality c) :=
  ⟨⟨row720, by simp, rfl⟩, C4_picks_max_quality.1 [row720, row1080] ⟨row720, by simp, rfl⟩⟩

/-- C6 counterexample: on a final page whose only quality section yields
zero links, `/api/final-links` replies with HTTP status 500, not the 404 the
claim states: the internal `HTTPException(404, "No download links found")`
is caught by the endpoint's blanket `except Exception` handler and
re-raised as a 500. -/
theorem C6_counterexample_status :
    statusOf (get_final_download_links netEmptySection "u") = some 500 ∧
    statusOf (get_final_download_links netEmptySection "u") ≠ some 404 := by
  exact ⟨rfl, by decide⟩

/-- C6 (amended): a quality section from which zero provider links were
extracted is omitted from the returned mapping (a returned mapping never
carries an empty list), and when zero quality sections yield any links the
operation fails with the NotFoundError detail `"No download links found"`,
surfaced by `/api/final-links` as HTTP **500** (the blanket handler converts
the internal 404). -/
theorem C6_empty_sections_amended :
    (∀ (d : List (String × List ProviderLink)) (q : String),
       flStep d ⟨some q, some []⟩ = .ok d) ∧
    (∀ (net : Net) (url : String) (d : List (String × List ProviderLink)),
       get_final_download_links net url = .ok d → ∀ p ∈ d, p.2 ≠ []) ∧
    (∀ (net : Net) (url : String) (page : FinalPage),
       net.finalPage url = .ok page →
       (∀ div ∈ page.qualities, ∃ q, div.h2 = some q ∧ div.center = some []) →
       get_final_download_links net url =
         .error (.httpExc 500 "404: No download links found")) := by
  refine ⟨fun d q => rfl, ?_, ?_⟩
  · intro net url d h
    have hb := wrap500_ok h
    unfold flBody at hb
    cases hf : net.finalPage url with
    | err m => rw [hf] at hb; simp [fetch] at hb
    | ok page =>
      rw [hf] at hb
      simp only [fetch] at hb
      cases hq : flFold page.qualities [] with
      | error e => rw [hq] at hb; simp at hb
      | ok qs =>
        rw [hq] at hb
        by_cases hqe : qs = []
        · subst hqe
          simp at hb
        · have hqf : qs.isEmpty = false := by
            cases qs with
            | nil => exact absurd rfl hqe
            | cons a l => rfl
          simp [hqf] at hb
          rw [← hb]
          exact flFold_no_empty page.qualities [] qs (by simp) hq
  · intro net url page hf hall
    unfold get_final_download_links flBody
    rw [hf]
    simp only [fetch]
    rw [flFold_all_empty page.qualities [] hall]
    rfl

theorem C6_empty_sections_amended_witness :
    netEmptySection.finalPage "u" = .ok ⟨[⟨some "720p", some []⟩]⟩ ∧
    get_final_download_links netEmptySection "u" =
      .error (.httpExc 500 "404: No download links found") :=
  ⟨rfl,
    C6_empty_sections_amended.2.2 netEmptySection "u" ⟨[⟨some "720p", some []⟩]⟩ rfl
      (by
        intro div hdiv
        simp at hdiv
        subst hdiv
        exact ⟨"720p", rfl, rfl⟩)⟩

/-- C10: when two quality sections of one final page carry the same verbatim
label (and both yield links), the later section's link list replaces the
earlier one's in the returned mapping — overwritten, not merged or appended
— while the label keeps its first-seen position in the key order, shown with
a same-label pair and with an interleaved distinct label. -/
theorem C10_duplicate_label_overwrites :
    (∀ (net : Net) (url q : String) (a1 a2 : DownAnchor) (h1 h2 : String),
       net.finalPage url = .ok ⟨[⟨some q, some [a1]⟩, ⟨some q, some [a2]⟩]⟩ →
       a1.href = some h1 → a2.href = some h2 →
       get_final_download_links net url =
         .ok [(q, [{ provider := a2.text, url := h2 }])]) ∧
    (∀ (net : Net) (url qA qB : String) (a1 b1 a2 : DownAnchor) (h1 h2 h3 : String),
       qA ≠ qB →
       net.finalPage url =
         .ok ⟨[⟨some qA, some [a1]⟩, ⟨some qB, some [b1]⟩, ⟨some qA, some [a2]⟩]⟩ →
       a1.href = some h1 → b1.href = some h2 → a2.href = some h3 →
       get_final_download_links net url =
         .ok [(qA, [{ provider := a2.text, url := h3 }]),
              (qB, [{ provider := b1.text, url := h2 }])]) := by
  constructor
  · intro net url q a1 a2 h1 h2 hf hh1 hh2
    obtain ⟨t1, r1⟩ := a1
    obtain ⟨t2, r2⟩ := a2
    simp at hh1 hh2
    subst hh1
    subst hh2
    unfold get_final_download_links flBody
    rw [hf]
    simp only [fetch]
    simp [flFold, flStep, extractLinks, dictInsert, wrap500]
  · intro net url qA qB a1 b1 a2 h1 h2 h3 hne hf hh1 hh2 hh3
    obtain ⟨t1, r1⟩ := a1
    obtain ⟨tb, rb⟩ := b1
    obtain ⟨t2, r2⟩ := a2
    simp at hh1 hh2 hh3
    subst hh1
    subst hh2
    subst hh3
    have hAB : (qA == qB) = false := by
      simp [hne]
    have hBA : (qB == qA) = false := by
      simp [Ne.symm hne]
    unfold get_final_download_links flBody
    rw [hf]
    simp only [fetch]
    simp [flFold, flStep, extractLinks, dictInsert, hAB, hBA, wrap500, hne, Ne.symm hne]

theorem C10_duplicate_label_overwrites_witness :
    (("720p" : String) ≠ "480p") ∧
    netDupLabel.finalPage "u" =
      .ok ⟨[⟨some "720p", some [⟨"P1", some "d1"⟩]⟩,
            ⟨some "480p", some [⟨"P2", some "d2"⟩]⟩,
            ⟨some "720p", some [⟨"P3", some "d3"⟩]⟩]⟩ ∧
    get_final_download_links netDupLabel "u" =
      .ok [("720p", [{ provider := "P3", url := "d3" }]),
           ("480p", [{ provider := "P2", url := "d2" }])] :=
  ⟨by decide, rfl,
    C10_duplicate_label_overwrites.2 netDupLabel "u" "720p" "480p"
      ⟨"P1", some "d1"⟩ ⟨"P2", some "d2"⟩ ⟨"P3", some "d3"⟩ "d1" "d2" "d3"
      (by decide) rfl rfl rfl rfl⟩
